import Mathlib

/-!
Verification of the `proxychannel` MITM proxy core (Go sources
`cert/certificate.go` and `proxychannel.go`) against its natural-language
specification.

The development shallowly embeds the two source files:

* the certificate-authority subsystem (`cert/certificate.go`): port
  stripping via `net.SplitHostPort`, the certificate template (MD5-derived
  serial number, validity window, SAN selection via `net.ParseIP`),
  `GeneratePem` and `GenerateTLSConfig` with the pluggable cache; and
* the lifecycle coordinator (`proxychannel.go`): the `Run` and
  `RunContext` goroutine/channel structure, modelled as labelled
  transition systems.

Machine integers are `Nat` with explicit reduction mod `2 ^ 32` (MD5) and
calendar arithmetic is over `Int` with Euclidean division (which equals
floor division for the positive divisors used).  Outcomes of the Go
standard-library crypto primitives (`rsa.GenerateKey`,
`x509.CreateCertificate`, `tls.X509KeyPair`) are inputs of the embedding:
the repository treats them as black boxes, branching only on their error
results, and their serialised outputs are kept structured here (DER and
PEM encodings are injective).
-/

/-! ## Bytes, hex encoding, UTF-8 -/

/-- The 2^32 modulus used for all 32-bit arithmetic in MD5. -/
def w32 : Nat := 4294967296

/-- Encoding of one Unicode code point as UTF-8 bytes, as Go's
`[]byte(string)` conversion produces for each rune. -/
def utf8Bytes (c : Char) : List Nat :=
  let n := c.toNat
  if n < 128 then [n]
  else if n < 2048 then [192 + n / 64, 128 + n % 64]
  else if n < 65536 then [224 + n / 4096, 128 + (n / 64) % 64, 128 + n % 64]
  else [240 + n / 262144, 128 + (n / 4096) % 64, 128 + (n / 64) % 64, 128 + n % 64]

/-- Go's `[]byte(s)`: the UTF-8 bytes of a string. -/
def strBytes (s : String) : List Nat :=
  s.data.foldr (fun c acc => utf8Bytes c ++ acc) []

/-- Lowercase hex digit for a value below 16, as used by Go's
`encoding/hex`. -/
def toHexDigit (n : Nat) : Char :=
  if n < 10 then Char.ofNat (48 + n) else Char.ofNat (87 + n)

/-- Go's `hex.EncodeToString`: two lowercase hex digits per byte. -/
def hexEncodeToString (bs : List Nat) : String :=
  ⟨bs.foldr (fun b acc => toHexDigit (b / 16) :: toHexDigit (b % 16) :: acc) []⟩

/-- Value of one hex digit character (both cases), `none` otherwise. -/
def hexDigitVal (c : Char) : Option Nat :=
  let n := c.toNat
  if 48 ≤ n ∧ n ≤ 57 then some (n - 48)
  else if 97 ≤ n ∧ n ≤ 102 then some (n - 87)
  else if 65 ≤ n ∧ n ≤ 70 then some (n - 55)
  else none

/-- One step of base-16 digit accumulation, failing on a non-hex
character. -/
def hexAccum (acc : Option Nat) (c : Char) : Option Nat :=
  match acc, hexDigitVal c with
  | some a, some v => some (a * 16 + v)
  | _, _ => none

/-- Model of `math/big`'s `Int.SetString(s, 16)` on the strings produced by
`hex.EncodeToString`: the nonnegative value of a nonempty all-hex string,
`none` on the empty string or a non-hex character. -/
def bigSetString16 (s : String) : Option Nat :=
  if s.data.isEmpty then none else s.data.foldl hexAccum (some 0)

/-- Big-endian value of a byte list. -/
def bytesBE (bs : List Nat) : Nat :=
  bs.foldl (fun a b => a * 256 + b) 0

/-! ## MD5 (RFC 1321), as used via Go's `crypto/md5` -/

/-- The 64 MD5 sine-table constants `K[i] = floor(2^32 * abs(sin(i+1)))`. -/
def md5K : List Nat :=
  [0xd76aa478, 0xe8c7b756, 0x242070db, 0xc1bdceee,
   0xf57c0faf, 0x4787c62a, 0xa8304613, 0xfd469501,
   0x698098d8, 0x8b44f7af, 0xffff5bb1, 0x895cd7be,
   0x6b901122, 0xfd987193, 0xa679438e, 0x49b40821,
   0xf61e2562, 0xc040b340, 0x265e5a51, 0xe9b6c7aa,
   0xd62f105d, 0x02441453, 0xd8a1e681, 0xe7d3fbc8,
   0x21e1cde6, 0xc33707d6, 0xf4d50d87, 0x455a14ed,
   0xa9e3e905, 0xfcefa3f8, 0x676f02d9, 0x8d2a4c8a,
   0xfffa3942, 0x8771f681, 0x6d9d6122, 0xfde5380c,
   0xa4beea44, 0x4bdecfa9, 0xf6bb4b60, 0xbebfbc70,
   0x289b7ec6, 0xeaa127fa, 0xd4ef3085, 0x04881d05,
   0xd9d4d039, 0xe6db99e5, 0x1fa27cf8, 0xc4ac5665,
   0xf4292244, 0x432aff97, 0xab9423a7, 0xfc93a039,
   0x655b59c3, 0x8f0ccc92, 0xffeff47d, 0x85845dd1,
   0x6fa87e4f, 0xfe2ce6e0, 0xa3014314, 0x4e0811a1,
   0xf7537e82, 0xbd3af235, 0x2ad7d2bb, 0xeb86d391]

/-- The 64 MD5 per-round left-rotation amounts. -/
def md5S : List Nat :=
  [7, 12, 17, 22, 7, 12, 17, 22, 7, 12, 17, 22, 7, 12, 17, 22,
   5, 9, 14, 20, 5, 9, 14, 20, 5, 9, 14, 20, 5, 9, 14, 20,
   4, 11, 16, 23, 4, 11, 16, 23, 4, 11, 16, 23, 4, 11, 16, 23,
   6, 10, 15, 21, 6, 10, 15, 21, 6, 10, 15, 21, 6, 10, 15, 21]

/-- 32-bit left rotation on a value below 2^32. -/
def rotl32 (x s : Nat) : Nat :=
  ((x <<< s) % w32) ||| (x >>> (32 - s))

/-- Bitwise complement within 32 bits. -/
def not32 (x : Nat) : Nat := x ^^^ 0xffffffff

/-- MD5 round function and message index for operation `i`. -/
def md5FG (i b c d : Nat) : Nat × Nat :=
  if i < 16 then ((b &&& c) ||| (not32 b &&& d), i)
  else if i < 32 then ((d &&& b) ||| (not32 d &&& c), (5 * i + 1) % 16)
  else if i < 48 then (b ^^^ c ^^^ d, (3 * i + 5) % 16)
  else (c ^^^ (b ||| not32 d), (7 * i) % 16)

/-- One of the 64 MD5 operations on the running state `(a, b, c, d)`. -/
def md5Op (m : List Nat) (st : Nat × Nat × Nat × Nat) (i : Nat) :
    Nat × Nat × Nat × Nat :=
  match st with
  | (a, b, c, d) =>
    match md5FG i b c d with
    | (f, g) =>
      let f2 := (f + a + md5K.getD i 0 + m.getD g 0) % w32
      (d, (b + rotl32 f2 (md5S.getD i 0)) % w32, b, c)

/-- Little-endian 32-bit word from four bytes of a block. -/
def wordLE (block : List Nat) (j : Nat) : Nat :=
  block.getD (4 * j) 0 + 256 * block.getD (4 * j + 1) 0 +
    65536 * block.getD (4 * j + 2) 0 + 16777216 * block.getD (4 * j + 3) 0

/-- Process one 64-byte block. -/
def md5Block (st : Nat × Nat × Nat × Nat) (block : List Nat) :
    Nat × Nat × Nat × Nat :=
  let m := (List.range 16).map (wordLE block)
  match (List.range 64).foldl (md5Op m) st, st with
  | (a, b, c, d), (a0, b0, c0, d0) =>
    ((a0 + a) % w32, (b0 + b) % w32, (c0 + c) % w32, (d0 + d) % w32)

/-- Worker for `md5Blocks`, structurally recursive on a fuel bound (one
unit of fuel per consumed block suffices since every step consumes at
least one byte). -/
def md5BlocksGo : Nat → Nat × Nat × Nat × Nat → List Nat →
    Nat × Nat × Nat × Nat
  | 0, st, _ => st
  | _ + 1, st, [] => st
  | fuel + 1, st, b :: rest =>
    md5BlocksGo fuel (md5Block st ((b :: rest).take 64)) (rest.drop 63)

/-- Process a padded message, 64 bytes at a time. -/
def md5Blocks (st : Nat × Nat × Nat × Nat) (l : List Nat) :
    Nat × Nat × Nat × Nat :=
  md5BlocksGo l.length st l

/-- MD5 padding: a 0x80 byte, zeros to 56 mod 64, then the bit length as a
little-endian 64-bit quantity. -/
def md5Pad (msg : List Nat) : List Nat :=
  let len := msg.length
  let zeros := (64 + 56 - (len + 1) % 64) % 64
  msg ++ 128 :: List.replicate zeros 0 ++
    (List.range 8).map (fun j => ((len * 8) >>> (8 * j)) % 256)

/-- Four little-endian bytes of a 32-bit word. -/
def bytesOfWordLE (x : Nat) : List Nat :=
  [x % 256, (x >>> 8) % 256, (x >>> 16) % 256, (x >>> 24) % 256]

/-- The 16-byte MD5 digest of a byte sequence. -/
def md5 (msg : List Nat) : List Nat :=
  match md5Blocks (0x67452301, 0xefcdab89, 0x98badcfe, 0x10325476)
      (md5Pad msg) with
  | (a, b, c, d) =>
    bytesOfWordLE a ++ bytesOfWordLE b ++ bytesOfWordLE c ++ bytesOfWordLE d

/-! ## `net.SplitHostPort`

Model of Go's `net.SplitHostPort`.  The Go function distinguishes several
error messages; `GenerateTLSConfig` only branches on `err == nil`, so the
errors are collapsed to `none` here. -/

/-- Index of the last occurrence of a character (Go's
`byteIndex`-from-the-end used to find the final colon). -/
def lastIndexOf : List Char → Char → Option Nat
  | [], _ => none
  | a :: rest, c =>
    match lastIndexOf rest c with
    | some i => some (i + 1)
    | none => if a = c then some 0 else none

/-- Index of the first occurrence of a character. -/
def firstIndexOf : List Char → Char → Option Nat
  | [], _ => none
  | a :: rest, c =>
    if a = c then some 0 else (firstIndexOf rest c).map (· + 1)

/-- Go's `net.SplitHostPort`: split `host:port` or `[host]:port` at the
last colon.  Returns `none` exactly when Go returns a non-nil error. -/
def SplitHostPort (s : String) : Option (String × String) :=
  let l := s.data
  match lastIndexOf l ':' with
  | none => none
  | some i =>
    if l.head? = some '[' then
      match firstIndexOf l ']' with
      | none => none
      | some e =>
        if e + 1 = l.length then none
        else if e + 1 = i then
          if ((l.drop 1).contains '[') then none
          else if ((l.drop (e + 1)).contains ']') then none
          else some (⟨(l.take e).drop 1⟩, ⟨l.drop (i + 1)⟩)
        else none
    else
      if ((l.take i).contains ':') then none
      else if (l.contains '[') then none
      else if (l.contains ']') then none
      else some (⟨l.take i⟩, ⟨l.drop (i + 1)⟩)

/-- The bare host used by `GenerateTLSConfig` (lines 140-142): the host
part when `SplitHostPort` succeeds, otherwise the input unchanged. -/
def bareHost (s : String) : String :=
  match SplitHostPort s with
  | some (h, _) => h
  | none => s

/-! ## `net.ParseIP` -/

/-- Whether a character is a hex digit. -/
def isHexChar (c : Char) : Bool := (hexDigitVal c).isSome

/-- Value of a list of hex digits. -/
def hexVal (l : List Char) : Nat :=
  l.foldl (fun a c => a * 16 + (hexDigitVal c).getD 0) 0

/-- Read one IPv6 group: up to four leading hex digits.  Returns the
group value and the rest of the input; `none` if there is no digit or
more than four. -/
def xtoi4 (s : List Char) : Option (Nat × List Char) :=
  let digits := s.takeWhile isHexChar
  if digits.isEmpty then none
  else if 4 < digits.length then none
  else some (hexVal digits, s.drop digits.length)

/-- Whether a character is a decimal digit. -/
def isDecChar (c : Char) : Bool := 48 ≤ c.toNat ∧ c.toNat ≤ 57

/-- One dotted-quad field: one to three decimal digits, no leading zero,
value at most 255. -/
def parseV4Field (p : List Char) : Option Nat :=
  if p.isEmpty then none
  else if ¬(p.all isDecChar) then none
  else if 3 < p.length then none
  else if 1 < p.length ∧ p.head? = some '0' then none
  else
    let v := p.foldl (fun a c => a * 10 + (c.toNat - 48)) 0
    if 255 < v then none else some v

/-- Go's IPv4 parser: exactly four dot-separated fields. -/
def parseIPv4Fields (l : List Char) : Option (List Nat) :=
  match (l.splitOn '.').mapM parseV4Field with
  | some [a, b, c, d] => some [a, b, c, d]
  | _ => none

/-- The IPv6 group loop of Go's IPv6 parser.  `acc` holds the bytes
produced so far and `ell` the byte position of a `::` if one was seen.
`fuel` bounds the iteration count (at most eight groups are ever read). -/
def v6parts (fuel : Nat) (s : List Char) (acc : List Nat)
    (ell : Option Nat) : Option (List Nat × Option Nat) :=
  match fuel with
  | 0 => none
  | fuel + 1 =>
    if 16 ≤ acc.length then if s.isEmpty then some (acc, ell) else none
    else
      match xtoi4 s with
      | none => none
      | some (v, rest) =>
        if rest.head? = some '.' then
          if ell = none ∧ acc.length ≠ 12 then none
          else if 16 < acc.length + 4 then none
          else
            match parseIPv4Fields s with
            | none => none
            | some b4 => some (acc ++ b4, ell)
        else
          let acc2 := acc ++ [v / 256, v % 256]
          match rest with
          | [] => some (acc2, ell)
          | ':' :: [] => none
          | ':' :: ':' :: rest2 =>
            if ell ≠ none then none
            else if rest2.isEmpty then some (acc2, some acc2.length)
            else v6parts fuel rest2 acc2 (some acc2.length)
          | ':' :: rest2 => v6parts fuel rest2 acc2 ell
          | _ => none

/-- Expand a `::` to the missing zero bytes; reject a `::` in an already
full address and an incomplete address without `::`. -/
def finishV6 : Option (List Nat × Option Nat) → Option (List Nat)
  | none => none
  | some (acc, ell) =>
    if acc.length = 16 then if ell = none then some acc else none
    else
      match ell with
      | none => none
      | some e => some (acc.take e ++ List.replicate (16 - acc.length) 0 ++ acc.drop e)

/-- Go's IPv6 parser. -/
def parseIPv6 (l : List Char) : Option (List Nat) :=
  match l with
  | ':' :: ':' :: rest =>
    if rest.isEmpty then some (List.replicate 16 0)
    else finishV6 (v6parts 20 rest [] (some 0))
  | _ => finishV6 (v6parts 20 l [] none)

/-- First `.` or `:` decides between the IPv4 and IPv6 parser, as in Go's
`ParseIP` dispatch loop. -/
def firstSpecial : List Char → Option Char
  | [] => none
  | c :: r => if c = '.' ∨ c = ':' then some c else firstSpecial r

/-- The 12-byte prefix Go uses to represent an IPv4 address in the
16-byte form returned by `ParseIP`. -/
def v4InV6Lead : List Nat := [0, 0, 0, 0, 0, 0, 0, 0, 0, 0, 255, 255]

/-- Go's `net.ParseIP`: `none` exactly when Go returns `nil`; otherwise
the 16 bytes of the address. -/
def ParseIP (s : String) : Option (List Nat) :=
  match firstSpecial s.data with
  | some '.' => (parseIPv4Fields s.data).map (fun b4 => v4InV6Lead ++ b4)
  | some ':' => parseIPv6 s.data
  | _ => none

/-! ## Calendar arithmetic (`time.Time.AddDate`)

Go's `AddDate(y, m, d)` reads the civil date of the receiver and rebuilds
a time via `Date(year+y, month+m, day+d, clock...)`, which normalises the
month and lets the day overflow into following months.  A `GoTime` below
is the civil reading of an instant (the embedding works in a fixed zone);
`timeAbs` maps it to absolute seconds via the standard proleptic-Gregorian
day-number formula, in which Euclidean division equals floor division
because every divisor is positive. -/

/-- Days contributed by whole years: `365 y + ⌊y/4⌋ - ⌊y/100⌋ + ⌊y/400⌋`. -/
def yearTerm (y : Int) : Int :=
  365 * y + Int.ediv y 4 - Int.ediv y 100 + Int.ediv y 400

/-- Day number (days since 1970-01-01) of a civil date, valid also for
out-of-range days, which overflow linearly exactly as in Go's `Date`. -/
def daysFromCivil (y m d : Int) : Int :=
  let yAdj := if m ≤ 2 then y - 1 else y
  let mp := if m ≤ 2 then m + 9 else m - 3
  yearTerm yAdj + Int.ediv (153 * mp + 2) 5 + d - 1 - 719468

/-- Go's month normalisation in `Date`: fold surplus months into years. -/
def normYM (y m : Int) : Int × Int :=
  let mm := m - 1
  (y + Int.ediv mm 12, Int.emod mm 12 + 1)

/-- Day number computed by Go's `Date` constructor. -/
def goDateDays (y m d : Int) : Int :=
  match normYM y m with
  | (y2, m2) => daysFromCivil y2 m2 d

/-- An instant, given by its civil reading: date and second of day. -/
structure GoTime where
  year : Int
  month : Int
  day : Int
  sec : Int
deriving DecidableEq

/-- Absolute seconds of an instant. -/
def timeAbs (t : GoTime) : Int :=
  goDateDays t.year t.month t.day * 86400 + t.sec

/-- Absolute seconds of `t.AddDate(years, months, days)`. -/
def addDateAbs (t : GoTime) (years months days : Int) : Int :=
  goDateDays (t.year + years) (t.month + months) (t.day + days) * 86400 + t.sec

/-! ## The certificate template (`Certificate.template`, lines 197-224) -/

/-- Go `x509.KeyUsageDigitalSignature`. -/
def keyUsageDigitalSignature : Nat := 1

/-- Go `x509.KeyUsageDataEncipherment`. -/
def keyUsageDataEncipherment : Nat := 8

/-- Go `x509.KeyUsageKeyEncipherment`. -/
def keyUsageKeyEncipherment : Nat := 4

/-- Go `x509.ExtKeyUsageServerAuth`. -/
def extKeyUsageServerAuth : Nat := 1

/-- Go `x509.ExtKeyUsageClientAuth`. -/
def extKeyUsageClientAuth : Nat := 2

/-- The fields of the `x509.Certificate` template built by
`Certificate.template`. -/
structure X509Template where
  serialNumber : Nat
  commonName : String
  notBeforeAbs : Int
  notAfterAbs : Int
  basicConstraintsValid : Bool
  extKeyUsage : List Nat
  keyUsage : Nat
  ipAddresses : List (List Nat)
  dnsNames : List String
deriving DecidableEq

/-- `Certificate.template`: serial from the hex-encoded MD5 of the host,
validity from one year before to ten years after `now` (the two
`time.Now()` reads in the source are modelled as one instant), and a SAN
that is the parsed IP when the host is an IP literal and the host as a
DNS name otherwise. -/
def template (host : String) (now : GoTime) : X509Template :=
  let hexstr := hexEncodeToString (md5 (strBytes host))
  { serialNumber := (bigSetString16 hexstr).getD 0
    commonName := host
    notBeforeAbs := addDateAbs now (-1) 0 0
    notAfterAbs := addDateAbs now 10 0 0
    basicConstraintsValid := true
    extKeyUsage := [extKeyUsageClientAuth, extKeyUsageServerAuth]
    keyUsage := keyUsageDigitalSignature ||| keyUsageDataEncipherment |||
      keyUsageKeyEncipherment
    ipAddresses :=
      match ParseIP host with
      | some ip => [ip]
      | none => []
    dnsNames :=
      match ParseIP host with
      | some _ => []
      | none => [host] }

/-! ## Crypto boundary, `GeneratePem`, `GenerateTLSConfig`

The crypto primitives of the Go standard library are inputs of the
embedding: the sources branch only on their error results.  Serialised
artefacts stay structured (`PemBlock`, `DerCert`): Go's DER and PEM
encoders are injective, so equality of the structures below is equality
of the byte strings the code produces. -/

/-- Errors crossing the standard-library boundary. -/
inductive GoErr
  | keyGenError
  | signError
  | keyPairError
  | parseError
deriving DecidableEq

/-- An RSA private key, abstracted to its PKCS1 content. -/
abbrev RSAPriv := List Nat

/-- A PEM block: type line plus the encoded body. -/
structure PemBlock (α : Type) where
  type : String
  body : α
deriving DecidableEq

/-- The DER certificate produced by `x509.CreateCertificate`: determined
by the template and the subject public key (the CA signature adds no
further degrees of freedom relevant to the claims). -/
structure DerCert where
  tmpl : X509Template
  pub : List Nat
deriving DecidableEq

/-- Go `tls.Certificate` as assembled by `tls.X509KeyPair`. -/
structure TLSCertificate where
  cert : DerCert
  priv : RSAPriv
deriving DecidableEq

/-- Go `tls.Config`, restricted to the one field the code sets. -/
structure TLSConf where
  certificates : List TLSCertificate
deriving DecidableEq

/-- Per-call outcomes of the fallible standard-library crypto calls. -/
structure CryptoEnv where
  keyGen : Except GoErr RSAPriv
  signFail : Bool
  keyPairFail : Bool

/-- The public key determined by a private key (opaque in the claims). -/
def rsaPub (k : RSAPriv) : List Nat := k

/-- `Certificate.GeneratePem` (lines 172-195): generate a key, build the
template, sign it, and return the two PEM blocks.  No partial result is
returned on failure. -/
def GeneratePem (env : CryptoEnv) (host : String) (now : GoTime) :
    Except GoErr (PemBlock DerCert × PemBlock RSAPriv) :=
  match env.keyGen with
  | .error e => .error e
  | .ok priv =>
    let tmpl := template host now
    if env.signFail then .error .signError
    else
      .ok (⟨"CERTIFICATE", ⟨tmpl, rsaPub priv⟩⟩, ⟨"RSA PRIVATE KEY", priv⟩)

/-- Go `tls.X509KeyPair`, a pure function of the two PEM blocks. -/
def X509KeyPair (env : CryptoEnv) (certPem : PemBlock DerCert)
    (keyPem : PemBlock RSAPriv) : Except GoErr TLSCertificate :=
  if env.keyPairFail then .error .keyPairError
  else .ok ⟨certPem.body, keyPem.body⟩

/-- Modelled from the spec: the `Cache` capability (`Get(host)`,
`Set(host, cert)`) consumed by `Certificate`; its interface declaration
is not among the analysed sources.  An association list where the newest
entry wins gives the read-your-write visibility the spec requires. -/
def CacheState : Type := List (String × TLSCertificate)

/-- `Cache.Get`. -/
def cacheGet (c : CacheState) (k : String) : Option TLSCertificate :=
  List.lookup k c

/-- `Cache.Set`. -/
def cacheSet (c : CacheState) (k : String) (v : TLSCertificate) : CacheState :=
  (k, v) :: c

/-- Observable actions of one `GenerateTLSConfig` call. -/
inductive CacheEvent
  | get (key : String)
  | hit (key : String)
  | forge (host : String)
  | set (key : String)
deriving DecidableEq

/-- The cache-miss tail of `GenerateTLSConfig` (lines 152-168): forge,
assemble the key pair, store in the cache when one is configured. -/
def generateFresh (cache : Option CacheState) (env : CryptoEnv)
    (h : String) (now : GoTime) (ev : List CacheEvent) :
    Except GoErr TLSConf × Option CacheState × List CacheEvent :=
  match GeneratePem env h now with
  | .error e => (.error e, cache, ev ++ [.forge h])
  | .ok (certPem, keyPem) =>
    match X509KeyPair env certPem keyPem with
    | .error e => (.error e, cache, ev ++ [.forge h])
    | .ok cert =>
      match cache with
      | some c =>
        (.ok ⟨[cert]⟩, some (cacheSet c h cert), ev ++ [.forge h, .set h])
      | none => (.ok ⟨[cert]⟩, none, ev ++ [.forge h])

/-- `Certificate.GenerateTLSConfig` (lines 139-169): strip the port, try
the cache, otherwise forge and populate the cache.  Returns the result,
the cache after the call, and the events of the call. -/
def GenerateTLSConfig (cache : Option CacheState) (env : CryptoEnv)
    (host : String) (now : GoTime) :
    Except GoErr TLSConf × Option CacheState × List CacheEvent :=
  let h := bareHost host
  match cache with
  | some c =>
    match cacheGet c h with
    | some cert => (.ok ⟨[cert]⟩, some c, [.get h, .hit h])
    | none => generateFresh (some c) env h now [.get h]
  | none => generateFresh none env h now []

/-- Number of forge (`GeneratePem`) invocations recorded in an event
trace. -/
def forgeCount (ev : List CacheEvent) : Nat :=
  (ev.filter fun e =>
    match e with
    | .forge _ => true
    | _ => false).length

/-- Keys touched (read or written) on the cache by an event trace. -/
def cacheKeys (ev : List CacheEvent) : List String :=
  ev.filterMap fun e =>
    match e with
    | .get k => some k
    | .hit k => some k
    | .set k => some k
    | .forge _ => none

/-! ## Process initialisation (`cert/certificate.go` `init`, lines 114-124) -/

/-- Outcomes of parsing the two embedded PEM blocks
(`pem.Decode` + `x509.ParseCertificate` / `x509.ParsePKCS1PrivateKey`),
inputs of the model: the code branches only on their errors. -/
structure RootParseOutcome where
  caRes : Except GoErr (List Nat)
  keyRes : Except GoErr RSAPriv

/-- Process state after package initialisation. -/
inductive StartupState
  | aborted (onCert : Bool)
  | serving (rootCA : List Nat) (rootKey : RSAPriv)
deriving DecidableEq

/-- `init`: load the root certificate, panic on error; load the root key,
panic on error.  Go runs package `init` before `main`, so a panic here is
an unrecoverable abort that precedes any listener. -/
def certInit (o : RootParseOutcome) : StartupState :=
  match o.caRes with
  | .error _ => .aborted true
  | .ok ca =>
    match o.keyRes with
    | .error _ => .aborted false
    | .ok k => .serving ca k

/-- The listener can only be started from a `serving` state. -/
def listenerCanStart : StartupState → Bool
  | .aborted _ => false
  | .serving _ _ => true

/-- Certificate forging is only reachable from a `serving` state. -/
def forgeReachable : StartupState → Bool
  | .aborted _ => false
  | .serving _ _ => true

/-! ## The lifecycle coordinator (`proxychannel.go`)

`Run` launches `runExtensionManager` on its own goroutine and executes
`runServer` on the calling thread; `runServer` spawns a goroutine running
`runServerBlocking` (whose deferred functions close `serverDone`), waits
for a termination signal, arms a second-signal watcher goroutine, and
calls `server.Shutdown` with a 5-second grace budget; `runServer` itself
also defers `close(pc.serverDone)`.  Each goroutine is a program counter
in the state below; every transition is one atomic action of one
goroutine or of the environment (signal delivery, listener failure).
`signal.Notify` sends without blocking to each registered channel, so the
two buffered-size-1 signal channels drop a delivery when full.  Closing
an already-closed channel panics the process; `os.Exit` and an unhandled
panic are terminal. -/

/-- Whole-process status. -/
inductive ProcStatus
  | running
  | exited (code : Nat)
  | panicked
deriving DecidableEq

/-- Program counter of the goroutine running `runServerBlocking` inside
`runServer`. -/
inductive SrvPC
  | listening
  | returned (graceful : Bool)
  | deferDone (graceful : Bool)
  | exited
deriving DecidableEq

/-- Program counter of the main thread executing `runServer` then the
tail of `Run`. -/
inductive MainPC
  | waitSig1
  | spawnWatcher
  | stopping
  | stopReturned
  | waitExt
  | done
deriving DecidableEq

/-- Program counter of the `runExtensionManager` goroutine. -/
inductive ExtPC
  | waitSig
  | waitServerDone
  | cleanup
  | done
deriving DecidableEq

/-- Global state of an execution of `Run`. -/
structure RunState where
  status : ProcStatus
  srv : SrvPC
  mainPC : MainPC
  extPC : ExtPC
  watcherAlive : Bool
  watcherFired : Bool
  mainSig : Nat
  extSig : Nat
  shutdownCalled : Bool
  serverDoneClosed : Bool
  cleanupDone : Bool
deriving DecidableEq

/-- Initial state of `Run`: everything launched, no signal yet. -/
def runInit : RunState :=
  { status := .running
    srv := .listening
    mainPC := .waitSig1
    extPC := .waitSig
    watcherAlive := false
    watcherFired := false
    mainSig := 0
    extSig := 0
    shutdownCalled := false
    serverDoneClosed := false
    cleanupDone := false }

/-- The atomic actions of the `Run` system. -/
inductive RunLabel
  | deliverSignal
  | srvReturn (graceful : Bool)
  | srvDefers
  | srvCheckErr
  | mainRecvSig
  | mainSpawnWatcher
  | mainCallShutdown
  | mainShutdownReturn
  | mainRunDefers
  | mainFinish
  | extRecvSig
  | extObserveDone
  | extCleanupDone
  | watcherFire
deriving DecidableEq

/-- One step of the `Run` system: `none` when the action is not enabled.
Each action is deterministic; the scheduler chooses the label. -/
def runStep (s : RunState) (l : RunLabel) : Option RunState :=
  if s.status ≠ .running then none
  else
    match l with
    | .deliverSignal =>
      some { s with mainSig := min (s.mainSig + 1) 1, extSig := min (s.extSig + 1) 1 }
    | .srvReturn graceful =>
      if s.srv = .listening then
        if graceful then
          if s.shutdownCalled then some { s with srv := .returned true } else none
        else some { s with srv := .returned false }
      else none
    | .srvDefers =>
      match s.srv with
      | .returned g =>
        if s.serverDoneClosed then some { s with status := .panicked }
        else some { s with serverDoneClosed := true, srv := .deferDone g }
      | _ => none
    | .srvCheckErr =>
      match s.srv with
      | .deferDone g =>
        if g then some { s with srv := .exited }
        else some { s with status := .exited 1 }
      | _ => none
    | .mainRecvSig =>
      if s.mainPC = .waitSig1 ∧ 1 ≤ s.mainSig then
        some { s with mainPC := .spawnWatcher, mainSig := s.mainSig - 1 }
      else none
    | .mainSpawnWatcher =>
      if s.mainPC = .spawnWatcher then
        some { s with mainPC := .stopping, watcherAlive := true }
      else none
    | .mainCallShutdown =>
      if s.mainPC = .stopping ∧ ¬s.shutdownCalled then
        some { s with shutdownCalled := true }
      else none
    | .mainShutdownReturn =>
      if s.mainPC = .stopping ∧ s.shutdownCalled then
        some { s with mainPC := .stopReturned }
      else none
    | .mainRunDefers =>
      if s.mainPC = .stopReturned then
        if s.serverDoneClosed then some { s with status := .panicked }
        else some { s with serverDoneClosed := true, mainPC := .waitExt }
      else none
    | .mainFinish =>
      if s.mainPC = .waitExt ∧ s.extPC = .done then
        some { s with mainPC := .done, status := .exited 0 }
      else none
    | .extRecvSig =>
      if s.extPC = .waitSig ∧ 1 ≤ s.extSig then
        some { s with extPC := .waitServerDone, extSig := s.extSig - 1 }
      else none
    | .extObserveDone =>
      if s.extPC = .waitServerDone ∧ s.serverDoneClosed then
        some { s with extPC := .cleanup }
      else none
    | .extCleanupDone =>
      if s.extPC = .cleanup then
        some { s with extPC := .done, cleanupDone := true }
      else none
    | .watcherFire =>
      if s.watcherAlive ∧ 1 ≤ s.mainSig then
        some { s with status := .exited 1, watcherFired := true, mainSig := s.mainSig - 1 }
      else none

/-- Run a schedule of actions from a state; `none` if any action is not
enabled where it appears. -/
def runTrace (s : RunState) : List RunLabel → Option RunState
  | [] => some s
  | l :: ls =>
    match runStep s l with
    | none => none
    | some s2 => runTrace s2 ls

/-! ### The `RunContext` system

`RunContext(ctx)` launches `runExtensionManager` and calls
`runServerBlocking(ctx)` on the calling thread.  `runServerBlocking`
derives a cancellable child of `ctx`, installs it as the server's
`BaseContext` (the base context handed to request handlers), and calls
`ListenAndServe`, closing `serverDone` on return.  Mirroring the source:
no goroutine watches the context's done channel, and neither `Shutdown`
nor `Close` is ever invoked in this path, so `ListenAndServe` can return
only through an internal listener error. -/

/-- Program counter of the thread calling `RunContext`. -/
inductive CtxMainPC
  | inListen
  | returnedErr
  | waitExt
  | done
deriving DecidableEq

/-- Global state of an execution of `RunContext`. -/
structure CtxState where
  ctxCancelled : Bool
  mainPC : CtxMainPC
  listening : Bool
  extPC : ExtPC
  extSig : Nat
  serverDoneClosed : Bool
  cleanupDone : Bool
deriving DecidableEq

/-- Initial state of `RunContext` with a cancellable external context. -/
def ctxInit : CtxState :=
  { ctxCancelled := false
    mainPC := .inListen
    listening := true
    extPC := .waitSig
    extSig := 0
    serverDoneClosed := false
    cleanupDone := false }

/-- The atomic actions of the `RunContext` system. -/
inductive CtxLabel
  | cancelCtx
  | deliverSignal
  | serverError
  | srvDefers
  | mainFinish
  | extRecvSig
  | extObserveDone
  | extCleanupDone
deriving DecidableEq

/-- One step of the `RunContext` system.  Cancelling the external context
marks the derived context done; per the source, no component reacts to
it, so no other field changes. -/
def ctxStep (s : CtxState) (l : CtxLabel) : Option CtxState :=
  match l with
  | .cancelCtx =>
    if s.ctxCancelled then none else some { s with ctxCancelled := true }
  | .deliverSignal => some { s with extSig := min (s.extSig + 1) 1 }
  | .serverError =>
    if s.mainPC = .inListen then
      some { s with mainPC := .returnedErr, listening := false }
    else none
  | .srvDefers =>
    if s.mainPC = .returnedErr then
      some { s with serverDoneClosed := true, mainPC := .waitExt }
    else none
  | .mainFinish =>
    if s.mainPC = .waitExt ∧ s.extPC = .done then some { s with mainPC := .done }
    else none
  | .extRecvSig =>
    if s.extPC = .waitSig ∧ 1 ≤ s.extSig then
      some { s with extPC := .waitServerDone, extSig := s.extSig - 1 }
    else none
  | .extObserveDone =>
    if s.extPC = .waitServerDone ∧ s.serverDoneClosed then
      some { s with extPC := .cleanup }
    else none
  | .extCleanupDone =>
    if s.extPC = .cleanup then some { s with extPC := .done, cleanupDone := true }
    else none

/-- Reachability along steps that never use the internal-listener-error
action: the executions in which the only external stimuli are context
cancellation and OS signals. -/
def CtxReachNoErr (a b : CtxState) : Prop :=
  Relation.ReflTransGen
    (fun x y => ∃ l, l ≠ CtxLabel.serverError ∧ ctxStep x l = some y) a b

/-- Eleven mean Gregorian years in seconds (a mean year is 365.2425 days
of 86400 seconds, i.e. 31556952 seconds). -/
def elevenYearsSec : Int := 11 * 31556952

/-! ## Claim C9: fatal initialisation on unparseable root material -/

/-- C9: if either the embedded root certificate or the embedded root key
fails to parse, `init` panics, aborting startup before any listener can
start or any certificate can be forged; when both parse, the process
reaches the serving state from which forging is reachable. -/
theorem certInit_aborts_on_parse_failure (o : RootParseOutcome) :
    ((∃ e, o.caRes = .error e) ∨ (∃ e, o.keyRes = .error e) →
      ∃ b, certInit o = .aborted b ∧
        listenerCanStart (certInit o) = false ∧
        forgeReachable (certInit o) = false) ∧
    (∀ ca k, o.caRes = .ok ca → o.keyRes = .ok k →
      certInit o = .serving ca k ∧
        listenerCanStart (certInit o) = true ∧
        forgeReachable (certInit o) = true) := by
  obtain ⟨ca, key⟩ := o
  cases ca <;> cases key <;>
    simp [certInit, listenerCanStart, forgeReachable]

/-- Witness for C9: a corrupt certificate aborts; parseable material
serves. -/
theorem certInit_aborts_on_parse_failure_witness :
    (∃ b, certInit ⟨.error .parseError, .ok [1]⟩ = .aborted b ∧
      listenerCanStart (certInit ⟨.error .parseError, .ok [1]⟩) = false ∧
      forgeReachable (certInit ⟨.error .parseError, .ok [1]⟩) = false) ∧
    (certInit ⟨.ok [2], .ok [1]⟩ = .serving [2] [1] ∧
      listenerCanStart (certInit ⟨.ok [2], .ok [1]⟩) = true ∧
      forgeReachable (certInit ⟨.ok [2], .ok [1]⟩) = true) :=
  ⟨(certInit_aborts_on_parse_failure ⟨.error .parseError, .ok [1]⟩).1
      (Or.inl ⟨GoErr.parseError, rfl⟩),
    (certInit_aborts_on_parse_failure ⟨.ok [2], .ok [1]⟩).2 [2] [1] rfl rfl⟩

/-! ## Claim C6: exactly one subject-alternative-name entry -/

/-- C6: the template's SAN set has exactly one entry: for an IP-literal
host the parsed address alone in `IPAddresses` with no DNS names, and
otherwise the host alone in `DNSNames` with no IP addresses. -/
theorem template_san_exactly_one (host : String) (now : GoTime) :
    (∀ ip, ParseIP host = some ip →
      (template host now).ipAddresses = [ip] ∧
        (template host now).dnsNames = []) ∧
    (ParseIP host = none →
      (template host now).dnsNames = [host] ∧
        (template host now).ipAddresses = []) := by
  constructor
  · intro ip hip
    simp [template, hip]
  · intro hip
    simp [template, hip]

/-- Witness for C6 at an IP literal and at a DNS name. -/
theorem template_san_exactly_one_witness :
    ((template "192.168.0.1" ⟨2026, 10, 11, 0⟩).ipAddresses =
        [[0, 0, 0, 0, 0, 0, 0, 0, 0, 0, 255, 255, 192, 168, 0, 1]] ∧
      (template "192.168.0.1" ⟨2026, 10, 11, 0⟩).dnsNames = []) ∧
    ((template "example.com" ⟨2026, 10, 11, 0⟩).dnsNames = ["example.com"] ∧
      (template "example.com" ⟨2026, 10, 11, 0⟩).ipAddresses = []) :=
  ⟨(template_san_exactly_one "192.168.0.1" ⟨2026, 10, 11, 0⟩).1
      [0, 0, 0, 0, 0, 0, 0, 0, 0, 0, 255, 255, 192, 168, 0, 1] (by decide),
    (template_san_exactly_one "example.com" ⟨2026, 10, 11, 0⟩).2 (by decide)⟩

/-! ## Claim C2: `serverDone` is closed twice in `Run` -/

/-- C2 (failing execution): in `Run`, after one termination signal the
main thread completes `Shutdown` and its deferred `close(pc.serverDone)`
runs while the server goroutine is still inside `ListenAndServe` — so the
completion marker is closed before the server goroutine has finished —
and when that goroutine then returns, the second deferred
`close(pc.serverDone)` in `runServerBlocking` closes an already-closed
channel and panics the process.  This contradicts the claimed one-shot
marker closed only at server-goroutine completion. -/
theorem Run_serverDone_double_close_panics :
    runTrace runInit
        [RunLabel.deliverSignal, RunLabel.mainRecvSig, RunLabel.mainSpawnWatcher,
         RunLabel.mainCallShutdown, RunLabel.mainShutdownReturn,
         RunLabel.mainRunDefers] =
      some
        { status := ProcStatus.running, srv := SrvPC.listening,
          mainPC := MainPC.waitExt, extPC := ExtPC.waitSig,
          watcherAlive := true, watcherFired := false, mainSig := 0,
          extSig := 1, shutdownCalled := true, serverDoneClosed := true,
          cleanupDone := false } ∧
    runTrace
        { status := ProcStatus.running, srv := SrvPC.listening,
          mainPC := MainPC.waitExt, extPC := ExtPC.waitSig,
          watcherAlive := true, watcherFired := false, mainSig := 0,
          extSig := 1, shutdownCalled := true, serverDoneClosed := true,
          cleanupDone := false }
        [RunLabel.srvReturn true, RunLabel.srvDefers] =
      some
        { status := ProcStatus.panicked, srv := SrvPC.returned true,
          mainPC := MainPC.waitExt, extPC := ExtPC.waitSig,
          watcherAlive := true, watcherFired := false, mainSig := 0,
          extSig := 1, shutdownCalled := true, serverDoneClosed := true,
          cleanupDone := false } := by
  exact ⟨by decide, by decide⟩

/-! ## Claim C3: context cancellation does not tear down the listener -/

/-- C3 (refutation of the claimed behaviour): in the `RunContext` system,
along every execution whose only stimuli are context cancellation and
signal deliveries (no internal listener failure), the listener keeps
accepting: nothing in `runServerBlocking` watches the cancelled context,
and no component of this path ever calls `Shutdown` or `Close`.  In
particular cancelling the external context does not tear down the
listener. -/
theorem RunContext_cancel_does_not_stop_listener :
    ∀ s : CtxState, CtxReachNoErr ctxInit s →
      s.listening = true ∧ s.mainPC = CtxMainPC.inListen := by
  have inv : ∀ a b : CtxState,
      (∃ l, l ≠ CtxLabel.serverError ∧ ctxStep a l = some b) →
      a.listening = true ∧ a.mainPC = CtxMainPC.inListen →
      b.listening = true ∧ b.mainPC = CtxMainPC.inListen := by
    rintro a b ⟨l, hl, hstep⟩ ⟨ha1, ha2⟩
    cases l with
    | serverError => exact absurd rfl hl
    | cancelCtx =>
      simp [ctxStep, ha2] at hstep
      obtain ⟨-, rfl⟩ := hstep
      exact ⟨ha1, rfl⟩
    | deliverSignal =>
      simp [ctxStep, ha2] at hstep
      obtain rfl := hstep
      exact ⟨ha1, rfl⟩
    | srvDefers => simp [ctxStep, ha2] at hstep
    | mainFinish => simp [ctxStep, ha2] at hstep
    | extRecvSig =>
      simp [ctxStep, ha2] at hstep
      obtain ⟨-, rfl⟩ := hstep
      exact ⟨ha1, rfl⟩
    | extObserveDone =>
      simp [ctxStep, ha2] at hstep
      obtain ⟨-, rfl⟩ := hstep
      exact ⟨ha1, rfl⟩
    | extCleanupDone =>
      simp [ctxStep, ha2] at hstep
      obtain ⟨-, rfl⟩ := hstep
      exact ⟨ha1, rfl⟩
  intro s h
  induction h with
  | refl => exact ⟨rfl, rfl⟩
  | tail _ h2 ih => exact inv _ _ h2 ih

/-- Witness for C3: the state reached by just cancelling the context is
still listening. -/
theorem RunContext_cancel_does_not_stop_listener_witness :
    ({ ctxInit with ctxCancelled := true } : CtxState).listening = true ∧
      ({ ctxInit with ctxCancelled := true } : CtxState).mainPC =
        CtxMainPC.inListen :=
  RunContext_cancel_does_not_stop_listener _
    (Relation.ReflTransGen.single ⟨CtxLabel.cancelCtx, by decide, by decide⟩)

/-! ## Claim C4: second termination signal -/

/-- C4 (counterexample to the claim as stated): two termination signals
delivered in rapid succession — the second arriving after the first but
before the coordinator has read the first from its buffered-size-1 signal
channel — do not force termination: `signal.Notify`'s non-blocking send
drops the second delivery, so the watcher goroutine armed later never
receives it, graceful shutdown proceeds, and `Cleanup()` runs to
completion (`cleanupDone = true`, `watcherFired = false`, process still
running) instead of the process terminating immediately and forcefully
with cleanup bypassed. -/
theorem Run_rapid_double_signal_not_forced :
    runTrace runInit
        [RunLabel.deliverSignal, RunLabel.deliverSignal, RunLabel.mainRecvSig,
         RunLabel.extRecvSig, RunLabel.mainSpawnWatcher,
         RunLabel.mainCallShutdown, RunLabel.mainShutdownReturn,
         RunLabel.srvReturn true, RunLabel.srvDefers, RunLabel.srvCheckErr,
         RunLabel.extObserveDone, RunLabel.extCleanupDone] =
      some
        { status := ProcStatus.running, srv := SrvPC.exited,
          mainPC := MainPC.stopReturned, extPC := ExtPC.done,
          watcherAlive := true, watcherFired := false, mainSig := 0,
          extSig := 0, shutdownCalled := true, serverDoneClosed := true,
          cleanupDone := true } := by
  decide

/-- C4 (amended): once the coordinator has consumed the first signal and
armed the watcher goroutine, a signal pending on the channel makes the
watcher's receive step exit the process with status 1 in one atomic
action — a terminal state from which no further step (in particular no
cleanup step) is possible, leaving the cleanup flag exactly as it was
(cleanup may or may not have completed before). -/
theorem Run_second_signal_after_receipt_forces_exit :
    ∀ s : RunState, s.status = ProcStatus.running → s.watcherAlive = true →
      1 ≤ s.mainSig →
      ∃ s2, runStep s RunLabel.watcherFire = some s2 ∧
        s2.status = ProcStatus.exited 1 ∧ s2.watcherFired = true ∧
        s2.cleanupDone = s.cleanupDone ∧
        ∀ l t, runStep s2 l ≠ some t := by
  intro s h1 h2 h3
  refine ⟨{ s with status := .exited 1
                   watcherFired := true
                   mainSig := s.mainSig - 1 }, ?_, rfl, rfl, rfl, ?_⟩
  · simp [runStep, h1, h2, h3]
  · intro l t
    simp [runStep]

/-- Witness for the amended C4: from the reachable state in which the
main thread consumed the first signal, armed the watcher, and a second
signal was then delivered, the watcher's step forcefully exits with
status 1. -/
theorem Run_second_signal_after_receipt_forces_exit_witness :
    runTrace runInit
        [RunLabel.deliverSignal, RunLabel.mainRecvSig,
         RunLabel.mainSpawnWatcher, RunLabel.deliverSignal] =
      some
        { status := ProcStatus.running, srv := SrvPC.listening,
          mainPC := MainPC.stopping, extPC := ExtPC.waitSig,
          watcherAlive := true, watcherFired := false, mainSig := 1,
          extSig := 1, shutdownCalled := false, serverDoneClosed := false,
          cleanupDone := false } ∧
    ∃ s2,
      runStep
          { status := ProcStatus.running, srv := SrvPC.listening,
            mainPC := MainPC.stopping, extPC := ExtPC.waitSig,
            watcherAlive := true, watcherFired := false, mainSig := 1,
            extSig := 1, shutdownCalled := false, serverDoneClosed := false,
            cleanupDone := false }
          RunLabel.watcherFire =
        some s2 ∧
      s2.status = ProcStatus.exited 1 ∧ s2.watcherFired = true ∧
      s2.cleanupDone =
        ({ status := ProcStatus.running, srv := SrvPC.listening,
           mainPC := MainPC.stopping, extPC := ExtPC.waitSig,
           watcherAlive := true, watcherFired := false, mainSig := 1,
           extSig := 1, shutdownCalled := false, serverDoneClosed := false,
           cleanupDone := false } : RunState).cleanupDone ∧
      ∀ l t, runStep s2 l ≠ some t :=
  ⟨by decide,
    Run_second_signal_after_receipt_forces_exit _ rfl rfl (by decide)⟩

/-! ## Claims C10 and C1: cache discipline of `GenerateTLSConfig` -/

/-- Reading back the key just stored: read-your-write on the cache. -/
theorem cacheGet_cacheSet_self (c : CacheState) (k : String)
    (v : TLSCertificate) : cacheGet (cacheSet c k v) k = some v := by
  simp [cacheGet, cacheSet, List.lookup]

/-- On the miss path, an error outcome leaves the cache exactly as it was
and records a forge but no store. -/
theorem generateFresh_error_cache (cache : Option CacheState)
    (env : CryptoEnv) (h : String) (now : GoTime) (ev : List CacheEvent)
    (e : GoErr) (he : (generateFresh cache env h now ev).1 = .error e) :
    (generateFresh cache env h now ev).2.1 = cache ∧
      (generateFresh cache env h now ev).2.2 = ev ++ [CacheEvent.forge h] := by
  rcases hkg : env.keyGen with e2 | priv
  · simp [generateFresh, GeneratePem, hkg]
  · by_cases hsf : env.signFail
    · simp [generateFresh, GeneratePem, hkg, hsf]
    · by_cases hkp : env.keyPairFail
      · simp [generateFresh, GeneratePem, X509KeyPair, hkg, hsf, hkp]
      · rcases cache <;>
          simp [generateFresh, GeneratePem, X509KeyPair, hkg, hsf, hkp] at he

/-- C10: `GenerateTLSConfig` writes the cache only when it successfully
builds a fresh certificate — every error return and every cache hit
leaves the cache exactly as it was, with no store event. -/
theorem GenerateTLSConfig_cache_unchanged_on_error_or_hit
    (cache : Option CacheState) (env : CryptoEnv) (host : String)
    (now : GoTime) :
    (∀ e, (GenerateTLSConfig cache env host now).1 = .error e →
      (GenerateTLSConfig cache env host now).2.1 = cache ∧
        ∀ k, CacheEvent.set k ∉ (GenerateTLSConfig cache env host now).2.2) ∧
    (∀ c cert, cache = some c → cacheGet c (bareHost host) = some cert →
      (GenerateTLSConfig cache env host now).2.1 = cache ∧
        ∀ k, CacheEvent.set k ∉ (GenerateTLSConfig cache env host now).2.2) := by
  constructor
  · intro e he
    rcases hc : cache with - | c
    · subst hc
      have h2 := generateFresh_error_cache none env (bareHost host) now [] e
        (by simpa [GenerateTLSConfig] using he)
      constructor
      · simpa [GenerateTLSConfig] using h2.1
      · intro k
        have h3 : (GenerateTLSConfig none env host now).2.2 =
            [CacheEvent.forge (bareHost host)] := by
          simpa [GenerateTLSConfig] using h2.2
        simp [h3]
    · subst hc
      rcases hget : cacheGet c (bareHost host) with - | cert
      · have h2 := generateFresh_error_cache (some c) env (bareHost host) now
          [CacheEvent.get (bareHost host)] e
          (by simpa [GenerateTLSConfig, hget] using he)
        constructor
        · simpa [GenerateTLSConfig, hget] using h2.1
        · intro k
          have h3 : (GenerateTLSConfig (some c) env host now).2.2 =
              [CacheEvent.get (bareHost host),
                CacheEvent.forge (bareHost host)] := by
            simpa [GenerateTLSConfig, hget] using h2.2
          simp [h3]
      · simp [GenerateTLSConfig, hget] at he
  · intro c cert hc hget
    subst hc
    constructor
    · simp [GenerateTLSConfig, hget]
    · intro k
      simp [GenerateTLSConfig, hget]

/-- Witness for C10: a failing key generation returns the error and
leaves a configured cache untouched. -/
theorem GenerateTLSConfig_cache_unchanged_on_error_or_hit_witness :
    (GenerateTLSConfig (some []) ⟨.error .keyGenError, false, false⟩
        "example.com" ⟨2026, 10, 11, 0⟩).2.1 = some [] ∧
      ∀ k, CacheEvent.set k ∉
        (GenerateTLSConfig (some []) ⟨.error .keyGenError, false, false⟩
          "example.com" ⟨2026, 10, 11, 0⟩).2.2 :=
  (GenerateTLSConfig_cache_unchanged_on_error_or_hit (some [])
      ⟨.error .keyGenError, false, false⟩ "example.com" ⟨2026, 10, 11, 0⟩).1
    GoErr.keyGenError rfl

/-- C1: with a cache configured and the bare host not yet cached, a
successful call forges exactly once and stores the result; the immediately
following call for the same host is a pure cache hit — no forge — and
returns the identical certificate (hence identical key material), leaving
the cache unchanged.  In total the two calls forge exactly once. -/
theorem GenerateTLSConfig_caching_forges_once
    (c : CacheState) (env1 env2 : CryptoEnv) (host : String)
    (now1 now2 : GoTime) (cfg1 : TLSConf)
    (hmiss : cacheGet c (bareHost host) = none)
    (hok : (GenerateTLSConfig (some c) env1 host now1).1 = .ok cfg1) :
    forgeCount (GenerateTLSConfig (some c) env1 host now1).2.2 +
        forgeCount
          (GenerateTLSConfig (GenerateTLSConfig (some c) env1 host now1).2.1
            env2 host now2).2.2 = 1 ∧
      (GenerateTLSConfig (GenerateTLSConfig (some c) env1 host now1).2.1
          env2 host now2).1 = .ok cfg1 ∧
      (GenerateTLSConfig (GenerateTLSConfig (some c) env1 host now1).2.1
          env2 host now2).2.1 =
        (GenerateTLSConfig (some c) env1 host now1).2.1 := by
  rcases hkg : env1.keyGen with e | k
  · simp [GenerateTLSConfig, generateFresh, GeneratePem, hmiss, hkg] at hok
  · by_cases hsf : env1.signFail
    · simp [GenerateTLSConfig, generateFresh, GeneratePem, hmiss, hkg, hsf]
        at hok
    · by_cases hkp : env1.keyPairFail
      · simp [GenerateTLSConfig, generateFresh, GeneratePem, X509KeyPair,
          hmiss, hkg, hsf, hkp] at hok
      · have hok2 : cfg1 =
            ⟨[⟨⟨template (bareHost host) now1, rsaPub k⟩, k⟩]⟩ := by
          have := hok
          simp [GenerateTLSConfig, generateFresh, GeneratePem, X509KeyPair,
            hmiss, hkg, hsf, hkp] at this
          exact this.symm
        subst hok2
        simp [GenerateTLSConfig, generateFresh, GeneratePem, X509KeyPair,
          hmiss, hkg, hsf, hkp, cacheGet_cacheSet_self, forgeCount]

/-- Witness for C1: an empty cache, host `example.com`, and a successful
crypto environment — the pair of calls forges once, and the second call
returns the first call's certificate from the cache. -/
theorem GenerateTLSConfig_caching_forges_once_witness :
    forgeCount (GenerateTLSConfig (some []) ⟨.ok [1], false, false⟩
          "example.com" ⟨2026, 10, 11, 0⟩).2.2 +
        forgeCount
          (GenerateTLSConfig
            (GenerateTLSConfig (some []) ⟨.ok [1], false, false⟩
              "example.com" ⟨2026, 10, 11, 0⟩).2.1
            ⟨.ok [2], false, false⟩ "example.com" ⟨2026, 10, 12, 0⟩).2.2 = 1 ∧
      (GenerateTLSConfig
          (GenerateTLSConfig (some []) ⟨.ok [1], false, false⟩
            "example.com" ⟨2026, 10, 11, 0⟩).2.1
          ⟨.ok [2], false, false⟩ "example.com" ⟨2026, 10, 12, 0⟩).1 =
        .ok ⟨[⟨⟨template "example.com" ⟨2026, 10, 11, 0⟩, rsaPub [1]⟩, [1]⟩]⟩ ∧
      (GenerateTLSConfig
          (GenerateTLSConfig (some []) ⟨.ok [1], false, false⟩
            "example.com" ⟨2026, 10, 11, 0⟩).2.1
          ⟨.ok [2], false, false⟩ "example.com" ⟨2026, 10, 12, 0⟩).2.1 =
        (GenerateTLSConfig (some []) ⟨.ok [1], false, false⟩
          "example.com" ⟨2026, 10, 11, 0⟩).2.1 :=
  GenerateTLSConfig_caching_forges_once [] ⟨.ok [1], false, false⟩
    ⟨.ok [2], false, false⟩ "example.com" ⟨2026, 10, 11, 0⟩ ⟨2026, 10, 12, 0⟩
    ⟨[⟨⟨template "example.com" ⟨2026, 10, 11, 0⟩, rsaPub [1]⟩, [1]⟩]⟩
    rfl rfl

/-! ## Claim C5: the MD5-derived serial number -/

/-- Hex digits round-trip through `hexDigitVal`. -/
theorem hexDigitVal_toHexDigit : ∀ n, n < 16 →
    hexDigitVal (toHexDigit n) = some n := by
  decide

/-- Folding the hex parser over the digit pair of each byte accumulates
the big-endian byte value. -/
theorem hexFold_bytes : ∀ (bs : List Nat) (a : Nat), (∀ b ∈ bs, b < 256) →
    List.foldl hexAccum (some a)
        (bs.foldr
          (fun b acc => toHexDigit (b / 16) :: toHexDigit (b % 16) :: acc)
          []) =
      some (bs.foldl (fun x b => x * 256 + b) a) := by
  intro bs
  induction bs with
  | nil => intro a _; rfl
  | cons b rest ih =>
    intro a hb
    have hb1 : b < 256 := hb b (List.mem_cons_self b rest)
    have e1 : hexAccum (some a) (toHexDigit (b / 16)) =
        some (a * 16 + b / 16) := by
      simp [hexAccum, hexDigitVal_toHexDigit (b / 16) (by omega)]
    have e2 : hexAccum (some (a * 16 + b / 16)) (toHexDigit (b % 16)) =
        some (a * 256 + b) := by
      simp only [hexAccum, hexDigitVal_toHexDigit (b % 16) (by omega)]
      congr 1
      omega
    simp only [List.foldr_cons, List.foldl_cons, e1, e2]
    exact ih (a * 256 + b) fun x hx => hb x (List.mem_cons_of_mem b hx)

/-- `bigSetString16` recovers the big-endian value of the bytes from the
string `hex.EncodeToString` produces. -/
theorem bigSetString16_hexEncode (bs : List Nat) (hne : bs ≠ [])
    (hb : ∀ b ∈ bs, b < 256) :
    bigSetString16 (hexEncodeToString bs) = some (bytesBE bs) := by
  cases bs with
  | nil => exact absurd rfl hne
  | cons b rest =>
    unfold bigSetString16 hexEncodeToString bytesBE
    simp only [List.foldr_cons]
    rw [if_neg (by simp)]
    exact hexFold_bytes (b :: rest) 0 hb

/-- An MD5 digest is a nonempty list of bytes below 256. -/
theorem md5_bytes (msg : List Nat) :
    md5 msg ≠ [] ∧ ∀ b ∈ md5 msg, b < 256 := by
  rcases hq : md5Blocks (0x67452301, 0xefcdab89, 0x98badcfe, 0x10325476)
      (md5Pad msg) with ⟨a, b, c, d⟩
  unfold md5
  rw [hq]
  constructor
  · simp [bytesOfWordLE]
  · intro x hx
    simp [bytesOfWordLE] at hx
    rcases hx with rfl | rfl | rfl | rfl | rfl | rfl | rfl | rfl | rfl |
      rfl | rfl | rfl | rfl | rfl | rfl | rfl <;> omega

/-- The template's serial number is the big-endian value of the MD5
digest of the host bytes — the value `SetString` assigns from the
hex-encoded digest. -/
theorem template_serialNumber (host : String) (now : GoTime) :
    (template host now).serialNumber = bytesBE (md5 (strBytes host)) := by
  have h := md5_bytes (strBytes host)
  simp [template, bigSetString16_hexEncode (md5 (strBytes host)) h.1 h.2]

/-- C5: a forged certificate's serial number is the big-integer value of
the hex-encoded MD5 digest of the host (equivalently, the big-endian
value of the digest bytes); it does not depend on the generation time or
the generated key, so two independent successful calls to `GeneratePem`
for the same host yield identical serial numbers, while distinct fresh
keys yield distinct returned key material. -/
theorem GeneratePem_serial_md5_deterministic
    (host : String) (now1 now2 : GoTime) (env1 env2 : CryptoEnv)
    (k1 k2 : RSAPriv) (cp1 cp2 : PemBlock DerCert)
    (kp1 kp2 : PemBlock RSAPriv)
    (h1 : env1.keyGen = .ok k1) (h2 : env2.keyGen = .ok k2)
    (hg1 : GeneratePem env1 host now1 = .ok (cp1, kp1))
    (hg2 : GeneratePem env2 host now2 = .ok (cp2, kp2)) :
    cp1.body.tmpl.serialNumber =
        (bigSetString16 (hexEncodeToString (md5 (strBytes host)))).getD 0 ∧
      cp1.body.tmpl.serialNumber = bytesBE (md5 (strBytes host)) ∧
      cp2.body.tmpl.serialNumber = cp1.body.tmpl.serialNumber ∧
      (k1 ≠ k2 → kp1 ≠ kp2) := by
  by_cases hs1 : env1.signFail
  · simp [GeneratePem, h1, hs1] at hg1
  by_cases hs2 : env2.signFail
  · simp [GeneratePem, h2, hs2] at hg2
  simp [GeneratePem, h1, hs1, h2, hs2] at hg1 hg2
  obtain ⟨hc1, hk1⟩ := hg1
  obtain ⟨hc2, hk2⟩ := hg2
  subst hc1; subst hk1; subst hc2; subst hk2
  refine ⟨rfl, template_serialNumber host now1, rfl, ?_⟩
  intro hne heq
  exact hne (congrArg PemBlock.body heq)

/-- Witness for C5 at host `example.com` with two distinct fresh keys. -/
theorem GeneratePem_serial_md5_deterministic_witness :
    ((⟨"CERTIFICATE", ⟨template "example.com" ⟨2026, 10, 11, 0⟩, rsaPub [1]⟩⟩ :
          PemBlock DerCert)).body.tmpl.serialNumber =
        (bigSetString16
          (hexEncodeToString (md5 (strBytes "example.com")))).getD 0 ∧
      ((⟨"CERTIFICATE",
            ⟨template "example.com" ⟨2026, 10, 12, 0⟩, rsaPub [2]⟩⟩ :
          PemBlock DerCert)).body.tmpl.serialNumber =
        ((⟨"CERTIFICATE",
            ⟨template "example.com" ⟨2026, 10, 11, 0⟩, rsaPub [1]⟩⟩ :
          PemBlock DerCert)).body.tmpl.serialNumber ∧
      (⟨"RSA PRIVATE KEY", [1]⟩ : PemBlock RSAPriv) ≠
        ⟨"RSA PRIVATE KEY", [2]⟩ := by
  have h := GeneratePem_serial_md5_deterministic "example.com"
    ⟨2026, 10, 11, 0⟩ ⟨2026, 10, 12, 0⟩ ⟨.ok [1], false, false⟩
    ⟨.ok [2], false, false⟩ [1] [2]
    ⟨"CERTIFICATE", ⟨template "example.com" ⟨2026, 10, 11, 0⟩, rsaPub [1]⟩⟩
    ⟨"CERTIFICATE", ⟨template "example.com" ⟨2026, 10, 12, 0⟩, rsaPub [2]⟩⟩
    ⟨"RSA PRIVATE KEY", [1]⟩ ⟨"RSA PRIVATE KEY", [2]⟩ rfl rfl rfl rfl
  exact ⟨h.1, h.2.2.1, h.2.2.2 (by decide)⟩

/-- Evaluation anchor: the embedded MD5 on a concrete host agrees with
the reference digest of `example.com`. -/
theorem md5_hex_example_com :
    hexEncodeToString (md5 (strBytes "example.com")) =
      "5ababd603b22780302dd8d83498e5172" := by
  decide

/-! ## Claim C7: the bare host is the only key -/

/-- A character absent from a list: `contains` is false. -/
theorem contains_eq_false_of_not_mem :
    ∀ (l : List Char) (c : Char), c ∉ l → l.contains c = false := by
  intro l c h
  induction l with
  | nil => rfl
  | cons a rest ih =>
    have h1 : c ≠ a := fun e => h (by rw [e]; exact List.mem_cons_self a rest)
    have h2 : c ∉ rest := fun e => h (List.mem_cons_of_mem a e)
    rw [List.contains_cons, ih h2, Bool.or_false]
    exact beq_eq_false_iff_ne.mpr h1

/-- A character absent from a list has no last index. -/
theorem lastIndexOf_eq_none_of_not_mem :
    ∀ (l : List Char) (c : Char), c ∉ l → lastIndexOf l c = none := by
  intro l c h
  induction l with
  | nil => rfl
  | cons a rest ih =>
    have h1 : a ≠ c := fun e => h (by rw [e]; exact List.mem_cons_self c rest)
    have h2 : c ∉ rest := fun e => h (List.mem_cons_of_mem a e)
    simp [lastIndexOf, ih h2, h1]

/-- The last occurrence of `c` in `l1 ++ c :: l2` with `c` absent from
`l2` is at position `l1.length`. -/
theorem lastIndexOf_append_cons (l1 l2 : List Char) (c : Char)
    (h : c ∉ l2) : lastIndexOf (l1 ++ c :: l2) c = some l1.length := by
  induction l1 with
  | nil => simp [lastIndexOf, lastIndexOf_eq_none_of_not_mem l2 c h]
  | cons a rest ih => simp [lastIndexOf, ih]

/-- `SplitHostPort` on `host:port`, with a colon- and bracket-free host
and port, returns the bare host and the port. -/
theorem SplitHostPort_strip (h p : String)
    (hc : ':' ∉ h.data) (hb1 : '[' ∉ h.data) (hb2 : ']' ∉ h.data)
    (pc : ':' ∉ p.data) (pb1 : '[' ∉ p.data) (pb2 : ']' ∉ p.data) :
    SplitHostPort (h ++ ":" ++ p) = some (h, p) := by
  have hdata : (h ++ ":" ++ p).data = h.data ++ ':' :: p.data := by
    rw [String.data_append, String.data_append, List.append_assoc]
    rfl
  have hnotmem1 : '[' ∉ h.data ++ ':' :: p.data := by
    intro hm
    rcases List.mem_append.mp hm with hm | hm
    · exact hb1 hm
    · rcases List.mem_cons.mp hm with hm | hm
      · exact absurd hm (by decide)
      · exact pb1 hm
  have hnotmem2 : ']' ∉ h.data ++ ':' :: p.data := by
    intro hm
    rcases List.mem_append.mp hm with hm | hm
    · exact hb2 hm
    · rcases List.mem_cons.mp hm with hm | hm
      · exact absurd hm (by decide)
      · exact pb2 hm
  have hhead : h.data.head? ≠ some '[' := by
    cases hd : h.data with
    | nil => simp
    | cons a rest =>
      have ha : a ≠ '[' := by
        intro e
        exact hb1 (by rw [hd, e]; exact List.mem_cons_self '[' rest)
      simp [ha]
  have hdrop : (h.data ++ ':' :: p.data).drop (h.length + 1) = p.data := by
    have e1 : h.data ++ ':' :: p.data = (h.data ++ [':']) ++ p.data := by simp
    rw [e1]
    refine List.drop_left' ?_
    rw [List.length_append]
    rfl
  unfold SplitHostPort
  rw [hdata]
  simp [lastIndexOf_append_cons h.data p.data ':' pc, hhead,
    List.take_left, hc, hb1, hb2, pb1, pb2, hdrop]

/-- `bareHost` strips exactly the port from a `host:port` input. -/
theorem bareHost_strip (h p : String)
    (hc : ':' ∉ h.data) (hb1 : '[' ∉ h.data) (hb2 : ']' ∉ h.data)
    (pc : ':' ∉ p.data) (pb1 : '[' ∉ p.data) (pb2 : ']' ∉ p.data) :
    bareHost (h ++ ":" ++ p) = h := by
  unfold bareHost
  rw [SplitHostPort_strip h p hc hb1 hb2 pc pb1 pb2]

/-- `bareHost` leaves a colon-free input unchanged. -/
theorem bareHost_no_colon (s : String) (h : ':' ∉ s.data) :
    bareHost s = s := by
  unfold bareHost SplitHostPort
  simp [lastIndexOf_eq_none_of_not_mem s.data ':' h]

/-- Every execution of `GenerateTLSConfig` produces one of four event
traces, all of whose keys are the bare host. -/
theorem GenerateTLSConfig_events (cache : Option CacheState)
    (env : CryptoEnv) (host : String) (now : GoTime) :
    (GenerateTLSConfig cache env host now).2.2 =
        [CacheEvent.get (bareHost host), CacheEvent.hit (bareHost host)] ∨
      (GenerateTLSConfig cache env host now).2.2 =
        [CacheEvent.get (bareHost host), CacheEvent.forge (bareHost host)] ∨
      (GenerateTLSConfig cache env host now).2.2 =
        [CacheEvent.get (bareHost host), CacheEvent.forge (bareHost host),
          CacheEvent.set (bareHost host)] ∨
      (GenerateTLSConfig cache env host now).2.2 =
        [CacheEvent.forge (bareHost host)] := by
  rcases cache with - | c
  · rcases hkg : env.keyGen with e | kk <;>
      by_cases hsf : env.signFail <;>
      by_cases hkp : env.keyPairFail <;>
      simp [GenerateTLSConfig, generateFresh, GeneratePem, X509KeyPair,
        hkg, hsf, hkp]
  · rcases hget : cacheGet c (bareHost host) with - | cert
    · rcases hkg : env.keyGen with e | kk <;>
        by_cases hsf : env.signFail <;>
        by_cases hkp : env.keyPairFail <;>
        simp [GenerateTLSConfig, generateFresh, GeneratePem, X509KeyPair,
          hget, hkg, hsf, hkp]
    · simp [GenerateTLSConfig, hget]

/-- A successful call that actually forged returns exactly the freshly
forged certificate, built from the template for the bare host. -/
theorem GenerateTLSConfig_ok_fresh (cache : Option CacheState)
    (env : CryptoEnv) (host : String) (now : GoTime) (cfg : TLSConf)
    (hok : (GenerateTLSConfig cache env host now).1 = .ok cfg)
    (hforge : forgeCount (GenerateTLSConfig cache env host now).2.2 = 1) :
    ∃ kk, env.keyGen = .ok kk ∧
      cfg = ⟨[⟨⟨template (bareHost host) now, rsaPub kk⟩, kk⟩]⟩ := by
  rcases cache with - | c
  · rcases hkg : env.keyGen with e | kk
    · simp [GenerateTLSConfig, generateFresh, GeneratePem, hkg] at hok
    · by_cases hsf : env.signFail
      · simp [GenerateTLSConfig, generateFresh, GeneratePem, hkg, hsf] at hok
      · by_cases hkp : env.keyPairFail
        · simp [GenerateTLSConfig, generateFresh, GeneratePem, X509KeyPair,
            hkg, hsf, hkp] at hok
        · refine ⟨kk, rfl, ?_⟩
          simp [GenerateTLSConfig, generateFresh, GeneratePem, X509KeyPair,
            hkg, hsf, hkp] at hok
          exact hok.symm
  · rcases hget : cacheGet c (bareHost host) with - | cert
    · rcases hkg : env.keyGen with e | kk
      · simp [GenerateTLSConfig, generateFresh, GeneratePem, hget, hkg]
          at hok
      · by_cases hsf : env.signFail
        · simp [GenerateTLSConfig, generateFresh, GeneratePem, hget, hkg,
            hsf] at hok
        · by_cases hkp : env.keyPairFail
          · simp [GenerateTLSConfig, generateFresh, GeneratePem,
              X509KeyPair, hget, hkg, hsf, hkp] at hok
          · refine ⟨kk, rfl, ?_⟩
            simp [GenerateTLSConfig, generateFresh, GeneratePem,
              X509KeyPair, hget, hkg, hsf, hkp] at hok
            exact hok.symm
    · simp [GenerateTLSConfig, forgeCount, hget] at hforge

/-- C7: `GenerateTLSConfig` strips the port before any further use — every
cache key it reads or writes is the bare host, every forge is invoked with
the bare host, a freshly forged certificate's subject common name is the
bare host, `bareHost` on a `host:port` input is the host alone, and a
colon-free host is used unchanged. -/
theorem GenerateTLSConfig_uses_bare_host (cache : Option CacheState)
    (env : CryptoEnv) (host : String) (now : GoTime) :
    (∀ k, k ∈ cacheKeys (GenerateTLSConfig cache env host now).2.2 →
      k = bareHost host) ∧
    (∀ h2,
      CacheEvent.forge h2 ∈ (GenerateTLSConfig cache env host now).2.2 →
      h2 = bareHost host) ∧
    (∀ cfg, (GenerateTLSConfig cache env host now).1 = .ok cfg →
      forgeCount (GenerateTLSConfig cache env host now).2.2 = 1 →
      ∀ tc ∈ cfg.certificates,
        tc.cert.tmpl.commonName = bareHost host) ∧
    (∀ hs pt : String, ':' ∉ hs.data → '[' ∉ hs.data → ']' ∉ hs.data →
      ':' ∉ pt.data → '[' ∉ pt.data → ']' ∉ pt.data →
      bareHost (hs ++ ":" ++ pt) = hs) ∧
    (':' ∉ host.data → bareHost host = host) := by
  refine ⟨?_, ?_, ?_,
    fun hs pt a1 a2 a3 a4 a5 a6 => bareHost_strip hs pt a1 a2 a3 a4 a5 a6,
    fun hcol => bareHost_no_colon host hcol⟩
  · intro k hk
    rcases GenerateTLSConfig_events cache env host now with he | he | he | he <;>
      rw [he] at hk <;> simp [cacheKeys] at hk <;> simp_all
  · intro h2 hmem
    rcases GenerateTLSConfig_events cache env host now with he | he | he | he <;>
      rw [he] at hmem <;> simp at hmem <;> simp_all
  · intro cfg hok hforge tc htc
    obtain ⟨kk, -, rfl⟩ :=
      GenerateTLSConfig_ok_fresh cache env host now cfg hok hforge
    simp at htc
    subst htc
    rfl

/-- Witness for C7 at `example.com:8443`: the key recorded on the cache
is the bare `example.com`, `bareHost` strips exactly the port, and a
port-free host passes through unchanged. -/
theorem GenerateTLSConfig_uses_bare_host_witness :
    "example.com" =
        bareHost "example.com:8443" ∧
      bareHost ("example.com" ++ ":" ++ "8443") = "example.com" ∧
      bareHost "example.com" = "example.com" :=
  ⟨(GenerateTLSConfig_uses_bare_host (some []) ⟨.ok [1], false, false⟩
        "example.com:8443" ⟨2026, 10, 11, 0⟩).1 "example.com" (by decide),
    (GenerateTLSConfig_uses_bare_host none ⟨.ok [1], false, false⟩
        "example.com" ⟨2026, 10, 11, 0⟩).2.2.2.1 "example.com" "8443"
      (by decide) (by decide) (by decide) (by decide) (by decide) (by decide),
    (GenerateTLSConfig_uses_bare_host none ⟨.ok [1], false, false⟩
        "example.com" ⟨2026, 10, 11, 0⟩).2.2.2.2 (by decide)⟩

/-! ## Claim C8: the validity window -/

/-- Shifting the dividend: the quotient jump is determined by the
residue. -/
theorem jump_eq (a k n : Int) (hn : n ≠ 0) :
    (a + k).ediv n = a.ediv n + (a.emod n + k).ediv n := by
  show (a + k) / n = a / n + (a % n + k) / n
  have ha : a + k = a % n + k + n * (a / n) := by
    have h : n * (a / n) + a % n = a := Int.ediv_add_emod a n
    linarith
  rw [ha, Int.add_mul_ediv_left _ _ hn]
  ring

/-- An 11-, 10- or 1-year jump of `yearTerm` depends only on the year's
residue modulo 400. -/
theorem yearTerm_jump (b k : Int) :
    yearTerm (b + k) - yearTerm b =
      365 * k + (b.emod 4 + k).ediv 4 - (b.emod 100 + k).ediv 100 +
        (b.emod 400 + k).ediv 400 := by
  unfold yearTerm
  rw [jump_eq b k 4 (by norm_num), jump_eq b k 100 (by norm_num),
    jump_eq b k 400 (by norm_num)]
  ring

set_option maxRecDepth 4000 in
/-- Over one calendar year the day count advances by 365 or 366. -/
theorem yearJump1_bounds : ∀ r : Nat, r < 400 →
    0 ≤ 365 * 1 + ((r : Int).emod 4 + 1).ediv 4 -
        ((r : Int).emod 100 + 1).ediv 100 +
        ((r : Int).emod 400 + 1).ediv 400 ∧
      365 * 1 + ((r : Int).emod 4 + 1).ediv 4 -
        ((r : Int).emod 100 + 1).ediv 100 +
        ((r : Int).emod 400 + 1).ediv 400 ≤ 400 := by
  decide

set_option maxRecDepth 4000 in
/-- Ten calendar years always advance the day count. -/
theorem yearJump10_bounds : ∀ r : Nat, r < 400 →
    0 ≤ 365 * 10 + ((r : Int).emod 4 + 10).ediv 4 -
        ((r : Int).emod 100 + 10).ediv 100 +
        ((r : Int).emod 400 + 10).ediv 400 ∧
      365 * 10 + ((r : Int).emod 4 + 10).ediv 4 -
        ((r : Int).emod 100 + 10).ediv 100 +
        ((r : Int).emod 400 + 10).ediv 400 ≤ 4000 := by
  decide

set_option maxRecDepth 4000 in
/-- Eleven calendar years span between 4016 and 4018 days — 4016 exactly
when the window contains a skipped century leap day. -/
theorem yearJump11_bounds : ∀ r : Nat, r < 400 →
    4016 ≤ 365 * 11 + ((r : Int).emod 4 + 11).ediv 4 -
        ((r : Int).emod 100 + 11).ediv 100 +
        ((r : Int).emod 400 + 11).ediv 400 ∧
      365 * 11 + ((r : Int).emod 4 + 11).ediv 4 -
        ((r : Int).emod 100 + 11).ediv 100 +
        ((r : Int).emod 400 + 11).ediv 400 ≤ 4018 := by
  decide

/-- Transfer a residue-checked bound on a `yearTerm` jump to arbitrary
years. -/
theorem yearTerm_diff_bounds (b1 b2 k lo hi : Int) (hk : b2 = b1 + k)
    (h : ∀ r : Nat, r < 400 →
      lo ≤ 365 * k + ((r : Int).emod 4 + k).ediv 4 -
          ((r : Int).emod 100 + k).ediv 100 +
          ((r : Int).emod 400 + k).ediv 400 ∧
        365 * k + ((r : Int).emod 4 + k).ediv 4 -
          ((r : Int).emod 100 + k).ediv 100 +
          ((r : Int).emod 400 + k).ediv 400 ≤ hi) :
    lo ≤ yearTerm b2 - yearTerm b1 ∧ yearTerm b2 - yearTerm b1 ≤ hi := by
  subst hk
  rw [yearTerm_jump]
  have hr0 : 0 ≤ b1.emod 400 := Int.emod_nonneg b1 (by norm_num)
  have hrlt : b1.emod 400 < 400 := Int.emod_lt_of_pos b1 (by norm_num)
  have e400 : b1.emod 400 = ((b1.emod 400).toNat : Int).emod 400 := by
    rw [Int.toNat_of_nonneg hr0]
    show b1 % 400 = b1 % 400 % 400
    rw [Int.emod_emod_of_dvd b1 (dvd_refl (400 : Int))]
  rw [e400]
  have e4 : b1.emod 4 = ((b1.emod 400).toNat : Int).emod 4 := by
    rw [Int.toNat_of_nonneg hr0]
    show b1 % 4 = b1 % 400 % 4
    rw [Int.emod_emod_of_dvd b1 (by norm_num : (4 : Int) ∣ 400)]
  have e100 : b1.emod 100 = ((b1.emod 400).toNat : Int).emod 100 := by
    rw [Int.toNat_of_nonneg hr0]
    show b1 % 100 = b1 % 400 % 100
    rw [Int.emod_emod_of_dvd b1 (by norm_num : (100 : Int) ∣ 400)]
  rw [e4, e100]
  exact h (b1.emod 400).toNat (by omega)

/-- The day-number facts behind the validity window: moving one year back
never advances the day count, moving ten years forward never retreats it,
and the full 11-year window spans 4016 to 4018 days. -/
theorem daysFromCivil_window (y m d : Int) :
    daysFromCivil (y - 1) m d ≤ daysFromCivil y m d ∧
      daysFromCivil y m d ≤ daysFromCivil (y + 10) m d ∧
      4016 ≤ daysFromCivil (y + 10) m d - daysFromCivil (y - 1) m d ∧
      daysFromCivil (y + 10) m d - daysFromCivil (y - 1) m d ≤ 4018 := by
  by_cases hm : m ≤ 2
  · simp only [daysFromCivil, hm, if_true, ite_true]
    obtain ⟨a1, a2⟩ := yearTerm_diff_bounds (y - 1 - 1) (y - 1) 1 0 400
      (by ring) yearJump1_bounds
    obtain ⟨b1, b2⟩ := yearTerm_diff_bounds (y - 1) (y + 10 - 1) 10 0 4000
      (by ring) yearJump10_bounds
    obtain ⟨c1, c2⟩ := yearTerm_diff_bounds (y - 1 - 1) (y + 10 - 1) 11
      4016 4018 (by ring) yearJump11_bounds
    exact ⟨by linarith, by linarith, by linarith, by linarith⟩
  · simp only [daysFromCivil, hm, if_false, ite_false]
    obtain ⟨a1, a2⟩ := yearTerm_diff_bounds (y - 1) y 1 0 400
      (by ring) yearJump1_bounds
    obtain ⟨b1, b2⟩ := yearTerm_diff_bounds y (y + 10) 10 0 4000
      (by ring) yearJump10_bounds
    obtain ⟨c1, c2⟩ := yearTerm_diff_bounds (y - 1) (y + 10) 11
      4016 4018 (by ring) yearJump11_bounds
    exact ⟨by linarith, by linarith, by linarith, by linarith⟩

/-- C8 (amended): for every host and every generation instant,
`NotBefore ≤ now ≤ NotAfter`, and `NotAfter - NotBefore` is between 4016
and 4018 days — within one day of eleven mean Gregorian years except when
the window spans a skipped century leap day, hence always within two
days. -/
theorem template_validity_window (host : String) (now : GoTime) :
    (template host now).notBeforeAbs ≤ timeAbs now ∧
      timeAbs now ≤ (template host now).notAfterAbs ∧
      4016 * 86400 ≤
        (template host now).notAfterAbs - (template host now).notBeforeAbs ∧
      (template host now).notAfterAbs - (template host now).notBeforeAbs ≤
        4018 * 86400 ∧
      ((template host now).notAfterAbs - (template host now).notBeforeAbs -
          elevenYearsSec).natAbs ≤ 2 * 86400 := by
  obtain ⟨y, m, d, sec⟩ := now
  simp only [template, timeAbs, addDateAbs, add_zero, ← sub_eq_add_neg]
  have e1 : goDateDays (y - 1) m d =
      daysFromCivil (y + Int.ediv (m - 1) 12 - 1) (Int.emod (m - 1) 12 + 1)
        d := by
    show daysFromCivil (y - 1 + Int.ediv (m - 1) 12)
        (Int.emod (m - 1) 12 + 1) d = _
    congr 1
    ring
  have e2 : goDateDays y m d =
      daysFromCivil (y + Int.ediv (m - 1) 12) (Int.emod (m - 1) 12 + 1) d :=
    rfl
  have e3 : goDateDays (y + 10) m d =
      daysFromCivil (y + Int.ediv (m - 1) 12 + 10) (Int.emod (m - 1) 12 + 1)
        d := by
    show daysFromCivil (y + 10 + Int.ediv (m - 1) 12)
        (Int.emod (m - 1) 12 + 1) d = _
    congr 1
    ring
  rw [e1, e2, e3]
  obtain ⟨w1, w2, w3, w4⟩ :=
    daysFromCivil_window (y + Int.ediv (m - 1) 12) (Int.emod (m - 1) 12 + 1) d
  have hgen : ∀ t : Int, 4016 ≤ t → t ≤ 4018 →
      (t * 86400 - elevenYearsSec).natAbs ≤ 2 * 86400 := by
    intro t ht1 ht2
    simp only [elevenYearsSec]
    omega
  refine ⟨by linarith, by linarith, by linarith, by linarith, ?_⟩
  have egoal :
      daysFromCivil (y + Int.ediv (m - 1) 12 + 10) (Int.emod (m - 1) 12 + 1)
            d * 86400 + sec -
          (daysFromCivil (y + Int.ediv (m - 1) 12 - 1)
              (Int.emod (m - 1) 12 + 1) d * 86400 + sec) -
          elevenYearsSec =
        (daysFromCivil (y + Int.ediv (m - 1) 12 + 10)
              (Int.emod (m - 1) 12 + 1) d -
            daysFromCivil (y + Int.ediv (m - 1) 12 - 1)
              (Int.emod (m - 1) 12 + 1) d) * 86400 - elevenYearsSec := by
    ring
  rw [egoal]
  exact hgen _ w3 w4

/-- C8 (counterexample to the one-day tolerance): at generation instant
2097-06-15 noon the window from `NotBefore` (2096-06-15) to `NotAfter`
(2107-06-15) is 4016 days, because the skipped leap day of 2100 falls
inside it, and 4016 days is about 1.67 days short of eleven mean
Gregorian years — outside a one-day tolerance (under the Julian
365.25-day year the shortfall is 1.75 days, likewise outside it). -/
theorem template_validity_2097_outside_one_day :
    (template "example.com" ⟨2097, 6, 15, 43200⟩).notAfterAbs -
        (template "example.com" ⟨2097, 6, 15, 43200⟩).notBeforeAbs =
      4016 * 86400 ∧
      ¬(((template "example.com" ⟨2097, 6, 15, 43200⟩).notAfterAbs -
            (template "example.com" ⟨2097, 6, 15, 43200⟩).notBeforeAbs -
            elevenYearsSec).natAbs ≤ 86400) := by
  exact ⟨by decide, by decide⟩
